import Mathlib

/-!
Shallow embedding of the ent storage backend for sources and HasSourceAt
evidence (pkg/assembler/backends/ent/backend/source.go), together with the
small pieces of surrounding infrastructure that file relies on.  Go values
are modelled as plain Lean data: strings as String, timestamps as Nat
instants (time.Time.UTC changes only the display location, not the instant,
so it is the identity here), uuids as strings or counter-assigned numbers,
pointers as Option, and fallible code as Option / Except.  A distinguished
GoErr.nilDeref constructor models a Go nil-pointer dereference panic and
GoErr.indexOutOfRange a slice index-out-of-range panic; both are distinct
from gracefully returned errors.
-/

namespace Guac

/-- Constant srcTypeString from source.go. -/
def srcTypeString : String := "srcType"

/-- Constant srcNamespaceString from source.go. -/
def srcNamespaceString : String := "srcNamespace"

/-- Table name of the SourceName entity (ent sourcename.Table). -/
def sourceNameTable : String := "source_names"

/-- Table name of the HasSourceAt entity (ent hassourceat.Table). -/
def hasSourceAtTable : String := "has_source_ats"

/-- Helper stringOrEmpty used by the backend: dereference an optional string, empty when nil. -/
def stringOrEmpty : Option String → String
  | none => ""
  | some s => s

/-- Modelled from the spec: toGlobalID encodes a type tag plus a local id into one reversible external identifier (spec section 6, identifier encoding); the helper itself lives outside the excerpt. -/
def toGlobalID (table id : String) : String := table ++ ":" ++ id

/-- Modelled from the spec: toGlobalIDs maps toGlobalID over a list of local ids. -/
def toGlobalIDs (table : String) (ids : List String) : List String :=
  ids.map (toGlobalID table)

/-- Decoded form of a global identifier: a node-type tag and the local id. -/
structure GlobalID where
  nodeType : String
  id : String
deriving DecidableEq, Repr

/-- Split of a character list at the first colon separator. -/
def splitColon : List Char → Option (List Char × List Char)
  | [] => none
  | c :: cs =>
    if c = ':' then some ([], cs)
    else match splitColon cs with
      | none => none
      | some (a, b) => some (c :: a, b)

/-- Modelled from the spec: fromGlobalID is the reverse of the identifier encoding, splitting a well-formed global id into its type tag and local id (spec section 6). -/
def fromGlobalID (s : String) : GlobalID :=
  match splitColon s.data with
  | some (t, i) => if i.contains ':' then ⟨"", s⟩ else ⟨⟨t⟩, ⟨i⟩⟩
  | none => ⟨"", s⟩

/-- Modelled: uuid.Parse succeeds exactly on well-formed identifier strings, abstracted here to any nonempty string. -/
def uuidParse (s : String) : Option String :=
  if s = "" then none else some s

/-- Record model.SourceInputSpec: the natural key of a source (type, namespace, name, optional tag, optional commit). -/
structure SourceInputSpec where
  stype : String
  snamespace : String
  sname : String
  tag : Option String
  commit : Option String
deriving DecidableEq, Repr

/-- Record model.IDorSourceInput: either an already-resolved SourceName global id or an embedded natural key; Go pointer fields become Option. -/
structure IDorSourceInput where
  sourceNameID : Option String := none
  sourceInput : Option SourceInputSpec := none
deriving DecidableEq, Repr

/-- Record model.SourceIDs: the triple of global ids returned by source ingestion. -/
structure SourceIDs where
  sourceTypeID : String
  sourceNamespaceID : String
  sourceNameID : String
deriving DecidableEq, Repr

/-- Stored SourceName row (ent schema: id plus the five natural-key columns; tag and commit are stored through stringOrEmpty). -/
structure SourceNameRow where
  id : String
  stype : String
  snamespace : String
  sname : String
  tag : String
  commit : String
deriving DecidableEq, Repr

/-- Modelled from the spec: helpers.GetKey with SrcServerKey canonicalises the source natural key into the NameId key string; it is a pure deterministic function of the natural key (spec section 4.1). -/
def srcNameIdKey (s : SourceInputSpec) : String :=
  s.stype ++ "/" ++ s.snamespace ++ "/" ++ s.sname ++ "/" ++
    stringOrEmpty s.tag ++ "/" ++ stringOrEmpty s.commit

/-- Modelled from the spec: generateUUIDKey derives the stable identifier from the natural-key bytes (spec section 4.1, assignID as a deterministic hash). -/
def generateUUIDKey (key : String) : String := "uuid-" ++ key

/-- Agreement on the SourceName conflict columns FieldType, FieldNamespace, FieldName, FieldTag, FieldCommit listed in upsertSource and upsertBulkSource. -/
def srcNatKeyEq (a b : SourceNameRow) : Bool :=
  a.stype == b.stype && a.snamespace == b.snamespace && a.sname == b.sname &&
  a.tag == b.tag && a.commit == b.commit

/-- Storage-level insert-or-ignore on the SourceName conflict columns (OnConflict on the five natural-key columns, DoNothing). -/
def insertSourceIgnore (rows : List SourceNameRow) (r : SourceNameRow) : List SourceNameRow :=
  if rows.any (fun e => srcNatKeyEq e r) then rows else rows ++ [r]

/-- Function generateSourceNameCreate from source.go: the row an upsert will insert. -/
def generateSourceNameCreate (srcNameID : String) (srcInput : SourceInputSpec) : SourceNameRow :=
  { id := srcNameID
    stype := srcInput.stype
    snamespace := srcInput.snamespace
    sname := srcInput.sname
    tag := stringOrEmpty srcInput.tag
    commit := stringOrEmpty srcInput.commit }

/-- SourceIDs triple built from one source-name id, as at the end of upsertSource and upsertBulkSource. -/
def sourceIDsFor (id : String) : SourceIDs :=
  { sourceTypeID := toGlobalID srcTypeString id
    sourceNamespaceID := toGlobalID srcNamespaceString id
    sourceNameID := toGlobalID sourceNameTable id }

/-- Function upsertSource from source.go: computes the deterministic id from the natural key, performs the insert-or-ignore, and returns the SourceIDs triple; a conflict is not an error (the stdsql.ErrNoRows outcome is tolerated).  The none result models the Go nil-pointer dereference of src.SourceInput. -/
def upsertSource (rows : List SourceNameRow) (src : IDorSourceInput) :
    Option (List SourceNameRow × SourceIDs) :=
  match src.sourceInput with
  | none => none
  | some s =>
    let srcNameID := generateUUIDKey (srcNameIdKey s)
    let rows1 := insertSourceIgnore rows (generateSourceNameCreate srcNameID s)
    some (rows1, sourceIDsFor srcNameID)

/-- Method IngestSource: the WithinTX wrapper around upsertSource (the transaction commits on success and rolls back on error, adding no behaviour of its own on this path). -/
def ingestSource (rows : List SourceNameRow) (src : IDorSourceInput) :
    Option (List SourceNameRow × SourceIDs) :=
  upsertSource rows src

/-- Iterated single-record ingestion: n sequential IngestSource calls with the same input, collecting every returned triple. -/
def ingestSourceN : Nat → List SourceNameRow → IDorSourceInput →
    Option (List SourceNameRow × List SourceIDs)
  | 0, rows, _ => some (rows, [])
  | n+1, rows, src =>
    match ingestSource rows src with
    | none => none
    | some (rows1, ids) =>
      match ingestSourceN n rows1 src with
      | none => none
      | some (rowsN, rest) => some (rowsN, ids :: rest)

/-- Modelled from the spec: the configured maximum write-batch size (spec section 4.3); the constant is declared outside the excerpt, only its positivity matters here. -/
def MaxBatchSize : Nat := 5000

/-- Modelled from the spec: the maximum page-size cap applied by every list query (spec section 4.7); the constant is declared outside the excerpt. -/
def MaxPageSize : Nat := 1000

/-- Fuel-driven worker for chunk; with fuel at least the list length and a positive chunk size it partitions the list into consecutive runs of at most n elements. -/
def chunkGo (n : Nat) : Nat → List α → List (List α)
  | 0, _ => []
  | _, [] => []
  | fuel+1, x :: rest => ((x :: rest).take n) :: chunkGo n fuel ((x :: rest).drop n)

/-- Modelled from the spec: chunk partitions a slice into fixed-size batches of at most n records, boundaries purely size-based (spec section 4.3); the helper is declared outside the excerpt. -/
def chunk (n : Nat) (xs : List α) : List (List α) := chunkGo n xs.length xs

def srcInputKeyId (x : IDorSourceInput) : String :=
  match x.sourceInput with
  | some s => generateUUIDKey (srcNameIdKey s)
  | none => ""

/-- Row built for one bulk input (generateSourceNameCreate applied inside the loop of upsertBulkSource). -/
def srcInputCreate (x : IDorSourceInput) : SourceNameRow :=
  match x.sourceInput with
  | some s => generateSourceNameCreate (generateUUIDKey (srcNameIdKey s)) s
  | none => ⟨"", "", "", "", "", ""⟩

/-- Per-batch loop of upsertBulkSource: builds the SourceNameCreate rows and collects the deterministic ids, positionally; none models the Go nil dereference of src.SourceInput. -/
def srcBatchCreates : List IDorSourceInput → Option (List (SourceNameRow × String))
  | [] => some []
  | x :: xs =>
    match x.sourceInput with
    | none => none
    | some s =>
      match srcBatchCreates xs with
      | none => none
      | some rest =>
        some ((generateSourceNameCreate (generateUUIDKey (srcNameIdKey s)) s,
               generateUUIDKey (srcNameIdKey s)) :: rest)

/-- Batch loop of upsertBulkSource over the chunked input: each batch is built, bulk-inserted with OnConflict DoNothing (modelled as row-by-row insert-or-ignore), and the collected srcNameIDs accumulate across batches in input order. -/
def upsertBulkSourceGo : List SourceNameRow → List (List IDorSourceInput) →
    Option (List SourceNameRow × List String)
  | rows, [] => some (rows, [])
  | rows, b :: bs =>
    match srcBatchCreates b with
    | none => none
    | some cs =>
      match upsertBulkSourceGo (cs.foldl (fun r c => insertSourceIgnore r c.1) rows) bs with
      | none => none
      | some (rowsN, ids) => some (rowsN, cs.map (fun c => c.2) ++ ids)

/-- Function upsertBulkSource from source.go: chunks the inputs, runs the per-batch bulk upsert, and finally maps every collected srcNameID to its SourceIDs triple. -/
def upsertBulkSource (rows : List SourceNameRow) (srcInputs : List IDorSourceInput) :
    Option (List SourceNameRow × List SourceIDs) :=
  match upsertBulkSourceGo rows (chunk MaxBatchSize srcInputs) with
  | none => none
  | some (rowsN, ids) => some (rowsN, ids.map sourceIDsFor)

/-- Sequence of single upsertSource calls, threading the store and collecting each returned triple. -/
def upsertSourceSeq : List SourceNameRow → List IDorSourceInput →
    Option (List SourceNameRow × List SourceIDs)
  | rows, [] => some (rows, [])
  | rows, x :: xs =>
    match upsertSource rows x with
    | none => none
    | some (rows1, ids) =>
      match upsertSourceSeq rows1 xs with
      | none => none
      | some (rowsN, rest) => some (rowsN, ids :: rest)

/-- Failure outcomes of the embedded Go code.  nilDeref models a nil-pointer dereference panic and indexOutOfRange a slice index panic; invalidInput is a gracefully returned validation error, lookupErr a query-layer error (not found / not singular), and wrappedErr the gqlerror wrapping applied by callers to a propagated error. -/
inductive GoErr where
  | nilDeref
  | indexOutOfRange
  | invalidInput (msg : String)
  | lookupErr
  | wrappedErr (e : GoErr)
deriving DecidableEq, Repr

/-- Classifier for the invalid-input error class. -/
def GoErr.isInvalidInput : GoErr → Bool
  | .invalidInput _ => true
  | _ => false

/-- Enum model.PkgMatchType: evidence binds either to all versions of a package name or to one specific version. -/
inductive PkgMatchType where
  | allVersions
  | specificVersion
deriving DecidableEq, Repr

/-- Record model.MatchFlags carrying the package match type. -/
structure MatchFlags where
  pkg : PkgMatchType
deriving DecidableEq, Repr

/-- Modelled from the spec: the package natural-key components used to resolve a package reference (spec section 3); the full model.PkgInputSpec record is declared outside the excerpt. -/
structure PkgInputSpec where
  ptype : String
  pnamespace : String
  pname : String
  version : String
deriving DecidableEq, Repr

/-- Record model.IDorPkgInput: already-resolved name-level or version-level global id, or an embedded natural key; Go pointer fields become Option. -/
structure IDorPkgInput where
  packageNameID : Option String := none
  packageVersionID : Option String := none
  packageInput : Option PkgInputSpec := none
deriving DecidableEq, Repr

/-- Record model.HasSourceAtInputSpec; knownSince is a timestamp instant. -/
structure HasSourceAtInputSpec where
  knownSince : Nat
  justification : String
  origin : String
  collector : String
  documentRef : String
deriving DecidableEq, Repr

/-- Stored package-name row (type, namespace, name are denormalised onto one row in the ent schema). -/
structure PkgNameRow where
  id : String
  ptype : String
  pnamespace : String
  pname : String
deriving DecidableEq, Repr

/-- Stored package-version row, child of a package-name row. -/
structure PkgVersionRow where
  id : String
  nameID : String
  version : String
deriving DecidableEq, Repr

/-- Stored HasSourceAt evidence row; ids are generated, modelled as a counter value.  Exactly one of packageNameID (the AllVersions edge) and packageVersionID is expected to be set. -/
structure HasSourceAtRow where
  id : Nat
  sourceID : String
  justification : String
  knownSince : Nat
  collector : String
  origin : String
  documentRef : String
  packageNameID : Option String
  packageVersionID : Option String
deriving DecidableEq, Repr

/-- The relational store: the tables touched by source.go plus the generated-id counter for HasSourceAt rows. -/
structure DB where
  sources : List SourceNameRow
  pkgNames : List PkgNameRow
  pkgVersions : List PkgVersionRow
  hsats : List HasSourceAtRow
  hsatNext : Nat
deriving DecidableEq, Repr

/-- Record model.SourceSpec: the sparse filter over sources. -/
structure SourceSpec where
  id : Option String := none
  stype : Option String := none
  snamespace : Option String := none
  sname : Option String := none
  commit : Option String := none
  tag : Option String := none
deriving DecidableEq, Repr

/-- Helper optionalPredicate from the backend: an unset filter field imposes no constraint (spec section 4.7). -/
def optPred (o : Option β) (p : β → Bool) : Bool :=
  match o with
  | none => true
  | some v => p v

/-- Modelled: strings.EqualFold case-insensitive equality used by CommitEqualFold, restricted to simple folding. -/
def eqFold (a b : String) : Bool := a.data.map Char.toLower == b.data.map Char.toLower

/-- Function sourceQuery from source.go: conjunctive predicate over SourceName rows; ID, type, namespace, name and tag compile to equality, commit to case-insensitive equality. -/
def sourceQueryMatches (f : SourceSpec) (r : SourceNameRow) : Bool :=
  optPred f.id (fun v => (fromGlobalID v).id == r.id) &&
  optPred f.stype (fun v => v == r.stype) &&
  optPred f.snamespace (fun v => v == r.snamespace) &&
  optPred f.sname (fun v => v == r.sname) &&
  optPred f.commit (fun v => eqFold v r.commit) &&
  optPred f.tag (fun v => v == r.tag)

/-- Function sourceInputQuery from source.go: a filter matching exactly the natural key of an input, empty strings standing for unset tag and commit. -/
def sourceInputQuerySpec (f : SourceInputSpec) : SourceSpec :=
  { id := none
    commit := some (stringOrEmpty f.commit)
    tag := some (stringOrEmpty f.tag)
    sname := some f.sname
    stype := some f.stype
    snamespace := some f.snamespace }

/-- Function getSourceNameID from source.go: resolves a source natural key to the unique stored row id (ent OnlyID errors unless exactly one row matches). -/
def getSourceNameID (sources : List SourceNameRow) (s : SourceInputSpec) : Except GoErr String :=
  match sources.filter (fun r => sourceQueryMatches (sourceInputQuerySpec s) r) with
  | [r] => .ok r.id
  | _ => .error .lookupErr

/-- Modelled from the spec: getPkgName resolves the embedded package natural key to the stored package-name row (spec section 4.5); declared outside the excerpt. -/
def getPkgName (pkgNames : List PkgNameRow) (p : PkgInputSpec) : Except GoErr PkgNameRow :=
  match pkgNames.find? (fun r =>
      r.ptype == p.ptype && r.pnamespace == p.pnamespace && r.pname == p.pname) with
  | some r => .ok r
  | none => .error .lookupErr

/-- Modelled from the spec: getPkgVersion resolves the embedded package natural key plus version to the stored package-version row (spec section 4.5); declared outside the excerpt. -/
def getPkgVersion (pkgNames : List PkgNameRow) (pkgVersions : List PkgVersionRow)
    (p : PkgInputSpec) : Except GoErr PkgVersionRow :=
  match getPkgName pkgNames p with
  | .error e => .error e
  | .ok n =>
    match pkgVersions.find? (fun v => v.nameID == n.id && v.version == p.version) with
    | some v => .ok v
    | none => .error .lookupErr

/-- Source-resolution block of generateHasSourceAtCreate (source.go lines 179 to 196): an already-resolved SourceNameID is decoded and uuid-parsed, otherwise the embedded natural key is looked up; dereferencing an absent SourceInput is a nil-pointer panic. -/
def resolveSourceID (sources : List SourceNameRow) (srcv : IDorSourceInput) :
    Except GoErr String :=
  match srcv.sourceNameID with
  | some gid =>
    match uuidParse (fromGlobalID gid).id with
    | some u => .ok u
    | none => .error (.invalidInput "uuid conversion from SourceNameID failed")
  | none =>
    match srcv.sourceInput with
    | none => .error .nilDeref
    | some s => getSourceNameID sources s

/-- All-versions branch of generateHasSourceAtCreate (source.go lines 211 to 227): resolve the package-name id from an already-resolved id or the embedded natural key; dereferencing an absent PackageInput is a nil-pointer panic. -/
def resolvePkgNameID (pkgNames : List PkgNameRow) (pkgv : IDorPkgInput) :
    Except GoErr String :=
  match pkgv.packageNameID with
  | some gid =>
    match uuidParse (fromGlobalID gid).id with
    | some u => .ok u
    | none => .error (.invalidInput "uuid conversion from PackageNameID failed")
  | none =>
    match pkgv.packageInput with
    | none => .error .nilDeref
    | some p =>
      match getPkgName pkgNames p with
      | .error e => .error e
      | .ok pn => .ok pn.id

/-- Specific-version branch of generateHasSourceAtCreate (source.go lines 229 to 244), symmetric to the all-versions branch. -/
def resolvePkgVersionID (pkgNames : List PkgNameRow) (pkgVersions : List PkgVersionRow)
    (pkgv : IDorPkgInput) : Except GoErr String :=
  match pkgv.packageVersionID with
  | some gid =>
    match uuidParse (fromGlobalID gid).id with
    | some u => .ok u
    | none => .error (.invalidInput "uuid conversion from packageVersionID failed")
  | none =>
    match pkgv.packageInput with
    | none => .error .nilDeref
    | some p =>
      match getPkgVersion pkgNames pkgVersions p with
      | .error e => .error e
      | .ok pv => .ok pv.id

/-- Function generateHasSourceAtCreate from source.go: validates the source, resolves its id, sets the evidence fields (knownSince through UTC, which preserves the instant), validates the package, and sets exactly one of the two package foreign keys according to the match type.  The row id is a placeholder; it is assigned on execution. -/
def generateHasSourceAtCreate (db : DB) (pkg : Option IDorPkgInput)
    (src : Option IDorSourceInput) (pkgMatchType : MatchFlags)
    (hs : HasSourceAtInputSpec) : Except GoErr HasSourceAtRow :=
  match src with
  | none => .error (.invalidInput "source must be specified for hasSourceAt")
  | some srcv =>
    match resolveSourceID db.sources srcv with
    | .error e => .error e
    | .ok sourceID =>
      match pkg with
      | none => .error (.invalidInput "package must be specified for hasSourceAt")
      | some pkgv =>
        match pkgMatchType.pkg with
        | .allVersions =>
          match resolvePkgNameID db.pkgNames pkgv with
          | .error e => .error e
          | .ok pkgNameID =>
            .ok { id := 0
                  sourceID := sourceID
                  justification := hs.justification
                  knownSince := hs.knownSince
                  collector := hs.collector
                  origin := hs.origin
                  documentRef := hs.documentRef
                  packageNameID := some pkgNameID
                  packageVersionID := none }
        | .specificVersion =>
          match resolvePkgVersionID db.pkgNames db.pkgVersions pkgv with
          | .error e => .error e
          | .ok pkgVersionID =>
            .ok { id := 0
                  sourceID := sourceID
                  justification := hs.justification
                  knownSince := hs.knownSince
                  collector := hs.collector
                  origin := hs.origin
                  documentRef := hs.documentRef
                  packageNameID := none
                  packageVersionID := some pkgVersionID }

/-- Agreement on the base conflict columns listed by hasSourceAtConflictColumns: source id, justification, known-since, collector, origin, document ref. -/
def hsatBaseColsEq (a b : HasSourceAtRow) : Bool :=
  a.sourceID == b.sourceID && a.justification == b.justification &&
  a.knownSince == b.knownSince && a.collector == b.collector &&
  a.origin == b.origin && a.documentRef == b.documentRef

/-- Partition predicate (sql.ConflictWhere) selected by match type in upsertHasSourceAt and upsertBulkHasSourceAts: all-versions rows have package_version_id NULL and package_name_id NOT NULL, specific-version rows the converse. -/
def hsatConflictWhere (mt : PkgMatchType) (x : HasSourceAtRow) : Bool :=
  match mt with
  | .allVersions => x.packageVersionID.isNone && x.packageNameID.isSome
  | .specificVersion => x.packageVersionID.isSome && x.packageNameID.isNone

/-- Extra conflict column appended per match type (FieldPackageNameID or FieldPackageVersionID). -/
def hsatExtraColEq (mt : PkgMatchType) (a b : HasSourceAtRow) : Bool :=
  match mt with
  | .allVersions => a.packageNameID == b.packageNameID
  | .specificVersion => a.packageVersionID == b.packageVersionID

/-- Conflict of a new row with an existing one under the partial unique index matching the chosen match type: both rows lie in the index partition and they agree on every conflict column. -/
def hsatConflicts (mt : PkgMatchType) (r e : HasSourceAtRow) : Bool :=
  hsatBaseColsEq r e && hsatExtraColEq mt r e &&
  hsatConflictWhere mt r && hsatConflictWhere mt e

/-- Execution of one HasSourceAt insert under OnConflict with Ignore: on conflict nothing is written and the pre-existing row id is returned; otherwise the row is inserted under a fresh generated id. -/
def hsatInsertIgnoreRet (db : DB) (mt : PkgMatchType) (r : HasSourceAtRow) : DB × Nat :=
  match db.hsats.find? (fun e => hsatConflicts mt r e) with
  | some e => (db, e.id)
  | none =>
    ({ db with
        hsats := db.hsats ++ [{ r with id := db.hsatNext }]
        hsatNext := db.hsatNext + 1 },
     db.hsatNext)

/-- Execution of one HasSourceAt insert under OnConflict with DoNothing (the bulk path): same write semantics, no id reported. -/
def hsatInsertDoNothing (db : DB) (mt : PkgMatchType) (r : HasSourceAtRow) : DB :=
  (hsatInsertIgnoreRet db mt r).1

/-- Function upsertHasSourceAt from source.go: selects the conflict columns and the partition predicate by match type, builds the create, and executes it with Ignore, yielding the row id; on a generation error nothing is written. -/
def upsertHasSourceAt (db : DB) (pkg : IDorPkgInput) (pkgMatchType : MatchFlags)
    (source : IDorSourceInput) (spec : HasSourceAtInputSpec) : Except GoErr (DB × Nat) :=
  match generateHasSourceAtCreate db (some pkg) (some source) pkgMatchType spec with
  | .error e => .error e
  | .ok r => .ok (hsatInsertIgnoreRet db pkgMatchType.pkg r)

/-- Per-batch create-building loop of upsertBulkHasSourceAts (source.go lines 150 to 160): for every record of the batch the pkgs and sources slices are indexed at the shared running index, which then advances; an out-of-range slice access is a Go panic, a graceful generation failure is wrapped into a gqlerror, and a generation panic propagates unchanged. -/
def buildHsatCreates (db : DB) (pkgs : List (Option IDorPkgInput))
    (sources : List (Option IDorSourceInput)) (mt : MatchFlags) :
    List HasSourceAtInputSpec → Nat → Except GoErr (List HasSourceAtRow × Nat)
  | [], index => .ok ([], index)
  | hsa :: rest, index =>
    match pkgs.get? index, sources.get? index with
    | some p, some s =>
      match generateHasSourceAtCreate db p s mt hsa with
      | .error GoErr.nilDeref => .error GoErr.nilDeref
      | .error e => .error (.wrappedErr e)
      | .ok c =>
        match buildHsatCreates db pkgs sources mt rest (index+1) with
        | .error e => .error e
        | .ok (cs, idx) => .ok (c :: cs, idx)
    | _, _ => .error .indexOutOfRange

/-- Batch loop of upsertBulkHasSourceAts over the chunked input: the creates of a batch are built first, then executed as one bulk statement with DoNothing; the ids slice allocated at the top of the Go function is never appended to, so the empty list is what the function finally returns. -/
def upsertBulkHasSourceAtsGo : DB → List (Option IDorPkgInput) → MatchFlags →
    List (Option IDorSourceInput) → List (List HasSourceAtInputSpec) → Nat →
    Except GoErr (DB × List String)
  | db, _, _, _, [], _ => .ok (db, [])
  | db, pkgs, mt, sources, b :: bs, index =>
    match buildHsatCreates db pkgs sources mt b index with
    | .error e => .error e
    | .ok (cs, idx) =>
      upsertBulkHasSourceAtsGo
        (cs.foldl (fun d c => hsatInsertDoNothing d mt.pkg c) db) pkgs mt sources bs idx

/-- Function upsertBulkHasSourceAts from source.go: chunks the evidence records and runs the per-batch loop with a running index starting at zero. -/
def upsertBulkHasSourceAts (db : DB) (pkgs : List (Option IDorPkgInput))
    (pkgMatchType : MatchFlags) (sources : List (Option IDorSourceInput))
    (hasSourceAts : List HasSourceAtInputSpec) : Except GoErr (DB × List String) :=
  upsertBulkHasSourceAtsGo db pkgs pkgMatchType sources (chunk MaxBatchSize hasSourceAts) 0

/-- Method IngestHasSourceAts: transaction wrapper around upsertBulkHasSourceAts, mapping the collected ids to global ids. -/
def ingestHasSourceAts (db : DB) (pkgs : List (Option IDorPkgInput))
    (pkgMatchType : MatchFlags) (sources : List (Option IDorSourceInput))
    (hasSourceAts : List HasSourceAtInputSpec) : Except GoErr (DB × List String) :=
  match upsertBulkHasSourceAts db pkgs pkgMatchType sources hasSourceAts with
  | .error e => .error e
  | .ok (db1, ids) => .ok (db1, toGlobalIDs hasSourceAtTable ids)

/-- Projection of the returned identifier list from a bulk-ingestion result. -/
def bulkResultIds (r : Except GoErr (DB × List String)) : Option (List String) :=
  match r with
  | .ok (_, ids) => some ids
  | .error _ => none

/-- Modelled from the spec: the sparse package filter (name-level and version-level components) used by the package sub-queries (spec section 4.7); the full model.PkgSpec is declared outside the excerpt. -/
structure PkgSpec where
  ptype : Option String := none
  pnamespace : Option String := none
  pname : Option String := none
  version : Option String := none
deriving DecidableEq, Repr

/-- Modelled from the spec: the name-level package matcher built by pkgNameQueryFromPkgSpec / packageNameQuery — equality on the set name-level fields, the version constraint not applying at the name level (spec section 4.7); declared outside the excerpt. -/
def pkgNameSpecMatches (f : PkgSpec) (r : PkgNameRow) : Bool :=
  optPred f.ptype (fun v => v == r.ptype) &&
  optPred f.pnamespace (fun v => v == r.pnamespace) &&
  optPred f.pname (fun v => v == r.pname)

/-- Modelled from the spec: packageVersionQuery matches a version row together with its parent name against the set fields (spec section 4.7); declared outside the excerpt. -/
def pkgVersionSpecMatches (pkgNames : List PkgNameRow) (f : PkgSpec)
    (v : PkgVersionRow) : Bool :=
  optPred f.version (fun w => w == v.version) &&
  pkgNames.any (fun n => n.id == v.nameID && pkgNameSpecMatches f n)

/-- Record model.HasSourceAtSpec: the sparse filter compiled by hasSourceAtQuery. -/
structure HasSourceAtSpec where
  id : Option String := none
  collector : Option String := none
  origin : Option String := none
  documentRef : Option String := none
  justification : Option String := none
  knownSince : Option Nat := none
  pkg : Option PkgSpec := none
  source : Option SourceSpec := none
deriving DecidableEq, Repr

/-- Function hasSourceAtQuery from source.go: a conjunction of optional predicates — ID, collector, origin, document ref and justification compile to equality, and KnownSince compiles to KnownSinceEQ, an equality on the known-since timestamp — plus the package disjunction (all-versions edge or package-version edge) and the source sub-filter as related-entity predicates. -/
def hasSourceAtQueryMatches (db : DB) (f : HasSourceAtSpec) (r : HasSourceAtRow) : Bool :=
  optPred f.id (fun v => (fromGlobalID v).id == toString r.id) &&
  optPred f.collector (fun v => v == r.collector) &&
  optPred f.origin (fun v => v == r.origin) &&
  optPred f.documentRef (fun v => v == r.documentRef) &&
  optPred f.justification (fun v => v == r.justification) &&
  optPred f.knownSince (fun v => r.knownSince == v) &&
  (match f.pkg with
   | none => true
   | some ps =>
     (db.pkgNames.any (fun n => some n.id == r.packageNameID && pkgNameSpecMatches ps n))
     || (db.pkgVersions.any (fun v => some v.id == r.packageVersionID
           && pkgVersionSpecMatches db.pkgNames ps v)))
  &&
  (match f.source with
   | none => true
   | some ss => db.sources.any (fun s => s.id == r.sourceID && sourceQueryMatches ss s))

/-- External package-version shape. -/
structure ModelPackageVersion where
  id : String
  version : String
deriving DecidableEq, Repr

/-- External package-name shape holding its version list. -/
structure ModelPackageName where
  id : String
  pname : String
  versions : List ModelPackageVersion
deriving DecidableEq, Repr

/-- External package-namespace shape. -/
structure ModelPackageNamespace where
  id : String
  pnamespace : String
  names : List ModelPackageName
deriving DecidableEq, Repr

/-- External package shape: the Type to Namespace to Name to Version hierarchy. -/
structure ModelPackage where
  id : String
  ptype : String
  namespaces : List ModelPackageNamespace
deriving DecidableEq, Repr

/-- External source-name shape; tag and commit are present only when stored nonempty. -/
structure ModelSourceName where
  id : String
  sname : String
  tag : Option String
  commit : Option String
deriving DecidableEq, Repr

/-- External source-namespace shape. -/
structure ModelSourceNamespace where
  id : String
  snamespace : String
  names : List ModelSourceName
deriving DecidableEq, Repr

/-- External source shape: type with a single-namespace, single-name nesting. -/
structure ModelSource where
  id : String
  stype : String
  namespaces : List ModelSourceNamespace
deriving DecidableEq, Repr

/-- Function toModelSource from source.go: nil maps to nil; tag and commit become optional fields only when nonempty; the stored flat row is rebuilt into a single-namespace, single-name hierarchy. -/
def toModelSource (s : Option SourceNameRow) : Option ModelSource :=
  match s with
  | none => none
  | some s =>
    some { id := toGlobalID srcTypeString s.id
           stype := s.stype
           namespaces := [{ id := toGlobalID srcNamespaceString s.id
                            snamespace := s.snamespace
                            names := [{ id := toGlobalID sourceNameTable s.id
                                        sname := s.sname
                                        tag := if s.tag == "" then none else some s.tag
                                        commit := if s.commit == "" then none
                                                  else some s.commit }] }] }

/-- Function toModelSourceName from source.go: delegates to toModelSource. -/
def toModelSourceName (s : Option SourceNameRow) : Option ModelSource :=
  toModelSource s

/-- HasSourceAt record with its eager-loaded edges, as produced by getHasSourceAtObject: the all-versions package name, the package version with its parent name tree, and the source. -/
structure HasSourceAtRec where
  row : HasSourceAtRow
  edgeAllVersions : Option PkgNameRow
  edgePackageVersion : Option (PkgVersionRow × PkgNameRow)
  edgeSource : Option SourceNameRow
deriving DecidableEq, Repr

/-- Modelled from the spec: toModelPackage reconstructs the Type to Namespace to Name to Version hierarchy with single-element intermediate containers from a package-name row and the version rows to expose (spec section 4.6); declared outside the excerpt. -/
def toModelPackage (n : PkgNameRow) (vs : List PkgVersionRow) : ModelPackage :=
  { id := toGlobalID "pkgType" n.id
    ptype := n.ptype
    namespaces := [{ id := toGlobalID "pkgNamespace" n.id
                     pnamespace := n.pnamespace
                     names := [{ id := toGlobalID "package_names" n.id
                                 pname := n.pname
                                 versions := vs.map (fun v =>
                                   { id := toGlobalID "package_versions" v.id
                                     version := v.version }) }] }] }

/-- Modelled from the spec: backReferencePackageVersion attaches a loaded version under its parent name so that the full hierarchy can be rebuilt around the leaf (spec section 4.6); declared outside the excerpt. -/
def backReferencePackageVersion (pv : PkgVersionRow × PkgNameRow) :
    PkgNameRow × List PkgVersionRow :=
  (pv.2, [pv.1])

/-- Overwrite performed on the all-versions branch of toModelHasSourceAt: the expected response is the package name with an empty package-version array, so the single name container is emptied. -/
def setVersionsEmpty (p : ModelPackage) : ModelPackage :=
  match p.namespaces with
  | [] => p
  | ns :: rest =>
    match ns.names with
    | [] => p
    | nm :: nrest =>
      { p with namespaces := { ns with names := { nm with versions := [] } :: nrest } :: rest }

/-- External HasSourceAt shape. -/
structure ModelHasSourceAt where
  id : String
  pkg : ModelPackage
  source : Option ModelSource
  knownSince : Nat
  justification : String
  origin : String
  collector : String
  documentRef : String
deriving DecidableEq, Repr

/-- Function toModelHasSourceAt from source.go: a version-bound record is projected through backReferencePackageVersion (its parent name carrying exactly that one version); otherwise the all-versions name is projected and its version array overwritten to empty.  The none result models the Go nil dereference when neither package edge is loaded. -/
def toModelHasSourceAt (hr : HasSourceAtRec) : Option ModelHasSourceAt :=
  match hr.edgePackageVersion with
  | some pv =>
    some { id := toGlobalID hasSourceAtTable (toString hr.row.id)
           pkg := toModelPackage (backReferencePackageVersion pv).1
                    (backReferencePackageVersion pv).2
           source := toModelSourceName hr.edgeSource
           knownSince := hr.row.knownSince
           justification := hr.row.justification
           origin := hr.row.origin
           collector := hr.row.collector
           documentRef := hr.row.documentRef }
  | none =>
    match hr.edgeAllVersions with
    | none => none
    | some n =>
      some { id := toGlobalID hasSourceAtTable (toString hr.row.id)
             pkg := setVersionsEmpty (toModelPackage n [])
             source := toModelSourceName hr.edgeSource
             knownSince := hr.row.knownSince
             justification := hr.row.justification
             origin := hr.row.origin
             collector := hr.row.collector
             documentRef := hr.row.documentRef }

/-- Eager loading of the edges of a stored HasSourceAt row from the store (the With clauses of getHasSourceAtObject). -/
def loadHasSourceAtRec (db : DB) (r : HasSourceAtRow) : HasSourceAtRec :=
  { row := r
    edgeAllVersions :=
      match r.packageNameID with
      | none => none
      | some nid => db.pkgNames.find? (fun n => n.id == nid)
    edgePackageVersion :=
      match r.packageVersionID with
      | none => none
      | some vid =>
        match db.pkgVersions.find? (fun v => v.id == vid) with
        | none => none
        | some v =>
          match db.pkgNames.find? (fun n => n.id == v.nameID) with
          | none => none
          | some n => some (v, n)
    edgeSource := db.sources.find? (fun s => s.id == r.sourceID) }

/-- Method HasSourceAt (the list query) from source.go: a nil filter is replaced by the empty filter, the compiled predicate is applied, the result limited to MaxPageSize and projected to the external model. -/
def entHasSourceAt (db : DB) (filter : Option HasSourceAtSpec) :
    List (Option ModelHasSourceAt) :=
  (((db.hsats.filter (hasSourceAtQueryMatches db (filter.getD {}))).take MaxPageSize).map
    (fun r => toModelHasSourceAt (loadHasSourceAtRec db r)))

/-- Method Sources from source.go: a nil filter is replaced by the empty filter, sourceQuery is applied, the result limited to MaxPageSize and projected through toModelSourceName. -/
def entSources (db : DB) (filter : Option SourceSpec) : List (Option ModelSource) :=
  (((db.sources.filter (fun r => sourceQueryMatches (filter.getD {}) r)).take MaxPageSize).map
    (fun r => toModelSourceName (some r)))

/-- Certification type stored on the shared certification table: CertifyBad and CertifyGood rows are distinguished by this discriminant. -/
inductive CertType where
  | bad
  | good
deriving DecidableEq, Repr

/-- Stored certification row attached to a source name. -/
structure CertRow where
  id : String
  sourceID : String
  ctype : CertType
deriving DecidableEq, Repr

/-- The neighbor edge kinds of srcNameNeighbors embedded here; the scorecard, occurrence, metadata, point-of-contact and certify-legal edges are orthogonal to the studied claims and omitted. -/
structure AllowedEdges where
  sourceNameSourceNamespace : Bool := false
  sourceHasSourceAt : Bool := false
  sourceCertifyBad : Bool := false
  sourceCertifyGood : Bool := false
deriving DecidableEq, Repr

/-- Eager-load state of the generated ent SourceName query builder: the builder keeps one eager-load query per relation, and each WithCertification call assigns that single slot, so a later call replaces an earlier one.  The certification slot stores the type filter applied inside the call. -/
structure SrcNameQueryState where
  withHasSourceAt : Bool
  withCertification : Option CertType
deriving DecidableEq, Repr

/-- External node shapes emitted by the neighbor resolver, reduced to their identifying content. -/
inductive NeighborNode where
  | sourceNode (id : String)
  | hasSourceAtNode (id : Nat)
  | certifyBadNode (id : String)
  | certifyGoodNode (id : String)
deriving DecidableEq, Repr

/-- Method srcNameNeighbors from source.go, restricted to the embedded edge kinds: the query is filtered by node id and capped; the requested eager loads are registered on the builder (the CertifyBad and CertifyGood blocks each assign the certification slot, the later one winning); the output loop emits the namespace node, the loaded HasSourceAt edges, and for every loaded certification a CertifyBad node when its type is BAD and a CertifyGood node when its type is GOOD. -/
def srcNameNeighbors (db : DB) (certs : List CertRow) (nodeID : String)
    (allowed : AllowedEdges) : List NeighborNode :=
  let q0 : SrcNameQueryState := ⟨false, none⟩
  let q1 := if allowed.sourceHasSourceAt then { q0 with withHasSourceAt := true } else q0
  let q2 := if allowed.sourceCertifyBad then { q1 with withCertification := some CertType.bad }
            else q1
  let q3 := if allowed.sourceCertifyGood then { q2 with withCertification := some CertType.good }
            else q2
  let srcNames := (db.sources.filter
    (fun s => sourceQueryMatches { id := some nodeID } s)).take MaxPageSize
  srcNames.flatMap (fun s =>
    (if allowed.sourceNameSourceNamespace then [NeighborNode.sourceNode s.id] else [])
    ++ (if q3.withHasSourceAt then
          (db.hsats.filter (fun h => h.sourceID == s.id)).map
            (fun h => NeighborNode.hasSourceAtNode h.id)
        else [])
    ++ (match q3.withCertification with
        | none => []
        | some tp =>
          (certs.filter (fun c => c.sourceID == s.id && c.ctype == tp)).flatMap
            (fun c =>
              (if c.ctype == CertType.bad then [NeighborNode.certifyBadNode c.id] else [])
              ++ (if c.ctype == CertType.good then [NeighborNode.certifyGoodNode c.id]
                  else []))))

/-! ## Theorems -/

theorem srcNatKeyEq_refl (r : SourceNameRow) : srcNatKeyEq r r = true := by
  simp [srcNatKeyEq]

theorem insertSourceIgnore_mem (rows : List SourceNameRow) (r : SourceNameRow) :
    (insertSourceIgnore rows r).any (fun e => srcNatKeyEq e r) = true := by
  unfold insertSourceIgnore
  by_cases h : rows.any (fun e => srcNatKeyEq e r) = true
  · simp [h]
  · simp only [h, if_neg, Bool.not_eq_true, if_false]
    simp [List.any_append, srcNatKeyEq_refl]

theorem insertSourceIgnore_stable (rows : List SourceNameRow) (r : SourceNameRow)
    (h : rows.any (fun e => srcNatKeyEq e r) = true) :
    insertSourceIgnore rows r = rows := by
  simp [insertSourceIgnore, h]

theorem insertSourceIgnore_length (rows : List SourceNameRow) (r : SourceNameRow) :
    (insertSourceIgnore rows r).length ≤ rows.length + 1 := by
  unfold insertSourceIgnore
  by_cases h : rows.any (fun e => srcNatKeyEq e r) = true
  · simp [h]
  · simp [h]

theorem ingestSourceN_stable (n : Nat) (rows : List SourceNameRow)
    (src : IDorSourceInput) (s : SourceInputSpec) (h : src.sourceInput = some s)
    (hmem : rows.any
      (fun e => srcNatKeyEq e (generateSourceNameCreate (generateUUIDKey (srcNameIdKey s)) s))
        = true) :
    ingestSourceN n rows src
      = some (rows, List.replicate n (sourceIDsFor (generateUUIDKey (srcNameIdKey s)))) := by
  induction n with
  | zero => simp [ingestSourceN]
  | succ m ih =>
    unfold ingestSourceN
    rw [show ingestSource rows src = upsertSource rows src from rfl]
    unfold upsertSource
    rw [h]
    simp only [insertSourceIgnore_stable rows _ hmem, ih, List.replicate_succ]

/-- C1: ingesting the same source record n times (each call through IngestSource / upsertSource) raises no error on the natural-key conflict, creates at most one stored SourceName row, and every one of the n calls returns the same SourceIDs triple, computed deterministically from the natural key before the insert-or-ignore. -/
theorem ingestSource_idempotent (rows : List SourceNameRow) (src : IDorSourceInput)
    (s : SourceInputSpec) (n : Nat) (h : src.sourceInput = some s) :
    ∃ rowsN,
      ingestSourceN n rows src
        = some (rowsN, List.replicate n (sourceIDsFor (generateUUIDKey (srcNameIdKey s))))
      ∧ rowsN.length ≤ rows.length + 1 := by
  cases n with
  | zero => exact ⟨rows, by simp [ingestSourceN], by omega⟩
  | succ m =>
    refine ⟨insertSourceIgnore rows (generateSourceNameCreate (generateUUIDKey (srcNameIdKey s)) s),
      ?_, insertSourceIgnore_length _ _⟩
    unfold ingestSourceN
    rw [show ingestSource rows src = upsertSource rows src from rfl]
    unfold upsertSource
    rw [h]
    simp only
    rw [ingestSourceN_stable m _ src s h (insertSourceIgnore_mem _ _)]
    simp [List.replicate_succ]

/-- Witness for C1: three repeated ingestions of a concrete source record. -/
theorem ingestSource_idempotent_witness :
    (IDorSourceInput.mk none (some ⟨"git", "github.com/x", "repo", none, some "c0ffee"⟩)
      ).sourceInput = some ⟨"git", "github.com/x", "repo", none, some "c0ffee"⟩
    ∧ ∃ rowsN,
      ingestSourceN 3 []
          (IDorSourceInput.mk none (some ⟨"git", "github.com/x", "repo", none, some "c0ffee"⟩))
        = some (rowsN, List.replicate 3
            (sourceIDsFor (generateUUIDKey
              (srcNameIdKey ⟨"git", "github.com/x", "repo", none, some "c0ffee"⟩))))
      ∧ rowsN.length ≤ ([] : List SourceNameRow).length + 1 :=
  ⟨rfl, ingestSource_idempotent [] _ _ 3 rfl⟩

theorem chunkGo_flatten (n : Nat) (hn : 1 ≤ n) :
    ∀ (fuel : Nat) (xs : List α), xs.length ≤ fuel → (chunkGo n fuel xs).flatten = xs := by
  intro fuel
  induction fuel with
  | zero =>
    intro xs h
    simp only [Nat.le_zero, List.length_eq_zero] at h
    simp [chunkGo, h]
  | succ f ih =>
    intro xs h
    match xs with
    | [] => simp [chunkGo]
    | x :: rest =>
      rw [chunkGo]
      simp only [List.flatten_cons]
      rw [ih ((x :: rest).drop n)
        (by simp only [List.length_drop, List.length_cons]
            simp only [List.length_cons] at h
            omega)]
      exact List.take_append_drop _ _

theorem chunk_flatten (n : Nat) (hn : 1 ≤ n) (xs : List α) : (chunk n xs).flatten = xs :=
  chunkGo_flatten n hn xs.length xs le_rfl

/-- Deterministic source-name id computed for one bulk input (the srcNameID of the loop body of upsertBulkSource). -/

theorem srcBatchCreates_eq (b : List IDorSourceInput)
    (h : ∀ x ∈ b, x.sourceInput.isSome) :
    srcBatchCreates b = some (b.map (fun x => (srcInputCreate x, srcInputKeyId x))) := by
  induction b with
  | nil => simp [srcBatchCreates]
  | cons x xs ih =>
    have hx : x.sourceInput.isSome := h x (List.mem_cons_self x xs)
    match hs : x.sourceInput with
    | none => rw [hs] at hx; simp at hx
    | some s =>
      rw [srcBatchCreates, hs, ih (fun y hy => h y (List.mem_cons_of_mem x hy))]
      simp [srcInputCreate, srcInputKeyId, hs]

theorem upsertSourceSeq_eq (l : List IDorSourceInput) :
    ∀ (rows : List SourceNameRow), (∀ x ∈ l, x.sourceInput.isSome) →
    upsertSourceSeq rows l
      = some (l.foldl (fun r x => insertSourceIgnore r (srcInputCreate x)) rows,
              l.map (fun x => sourceIDsFor (srcInputKeyId x))) := by
  induction l with
  | nil => intro rows _; simp [upsertSourceSeq]
  | cons x xs ih =>
    intro rows h
    have hx : x.sourceInput.isSome := h x (List.mem_cons_self x xs)
    match hs : x.sourceInput with
    | none => rw [hs] at hx; simp at hx
    | some s =>
      rw [upsertSourceSeq, upsertSource, hs]
      simp only
      rw [ih _ (fun y hy => h y (List.mem_cons_of_mem x hy))]
      simp [srcInputCreate, srcInputKeyId, hs]

theorem upsertBulkSourceGo_eq (bs : List (List IDorSourceInput)) :
    ∀ (rows : List SourceNameRow), (∀ b ∈ bs, ∀ x ∈ b, x.sourceInput.isSome) →
    upsertBulkSourceGo rows bs
      = some (bs.flatten.foldl (fun r x => insertSourceIgnore r (srcInputCreate x)) rows,
              bs.flatten.map srcInputKeyId) := by
  induction bs with
  | nil => intro rows _; simp [upsertBulkSourceGo]
  | cons b bs ih =>
    intro rows h
    rw [upsertBulkSourceGo, srcBatchCreates_eq b (h b (List.mem_cons_self b bs))]
    simp only
    rw [ih _ (fun c hc => h c (List.mem_cons_of_mem b hc))]
    simp [List.foldl_map, List.foldl_append, List.map_map, Function.comp]

/-- C8: for every list of source inputs (in particular pairwise non-conflicting ones) the bulk path upsertBulkSource and the same number of sequential upsertSource calls return identical results: the same final store and the very same list of SourceIDs identifiers, hence the same identifier set. -/
theorem upsertBulkSource_eq_seq (rows : List SourceNameRow) (srcInputs : List IDorSourceInput)
    (h : ∀ x ∈ srcInputs, x.sourceInput.isSome) :
    upsertBulkSource rows srcInputs = upsertSourceSeq rows srcInputs := by
  have hflat : (chunk MaxBatchSize srcInputs).flatten = srcInputs :=
    chunk_flatten MaxBatchSize (by simp [MaxBatchSize]) srcInputs
  have hmem : ∀ b ∈ chunk MaxBatchSize srcInputs, ∀ x ∈ b, x.sourceInput.isSome := by
    intro b hb x hx
    exact h x (by rw [← hflat]; exact List.mem_flatten.mpr ⟨b, hb, hx⟩)
  rw [upsertBulkSource, upsertBulkSourceGo_eq _ rows hmem]
  simp only [hflat]
  rw [upsertSourceSeq_eq srcInputs rows h]
  simp [List.map_map, Function.comp]

/-- Witness for C8: the bulk path and the sequential path agree on a concrete two-record ingestion. -/
theorem upsertBulkSource_eq_seq_witness :
    (∀ x ∈ [IDorSourceInput.mk none (some ⟨"git", "ns", "a", none, none⟩),
            IDorSourceInput.mk none (some ⟨"svn", "ns", "b", some "t", none⟩)],
       x.sourceInput.isSome)
    ∧ upsertBulkSource []
        [IDorSourceInput.mk none (some ⟨"git", "ns", "a", none, none⟩),
         IDorSourceInput.mk none (some ⟨"svn", "ns", "b", some "t", none⟩)]
      = upsertSourceSeq []
        [IDorSourceInput.mk none (some ⟨"git", "ns", "a", none, none⟩),
         IDorSourceInput.mk none (some ⟨"svn", "ns", "b", some "t", none⟩)] :=
  ⟨by decide, upsertBulkSource_eq_seq [] _ (by decide)⟩

theorem generateHasSourceAtCreate_congr (db db' : DB) (pkg : Option IDorPkgInput)
    (src : Option IDorSourceInput) (mt : MatchFlags) (hs : HasSourceAtInputSpec)
    (h1 : db'.sources = db.sources) (h2 : db'.pkgNames = db.pkgNames)
    (h3 : db'.pkgVersions = db.pkgVersions) :
    generateHasSourceAtCreate db' pkg src mt hs = generateHasSourceAtCreate db pkg src mt hs := by
  unfold generateHasSourceAtCreate
  rw [h1, h2, h3]

theorem generate_allVersions_inv (db : DB) (pkgv : IDorPkgInput) (srcv : IDorSourceInput)
    (hs : HasSourceAtInputSpec) (f : HasSourceAtRow)
    (h : generateHasSourceAtCreate db (some pkgv) (some srcv) ⟨.allVersions⟩ hs = .ok f) :
    ∃ sid nid,
      f = { id := 0, sourceID := sid, justification := hs.justification
            knownSince := hs.knownSince, collector := hs.collector, origin := hs.origin
            documentRef := hs.documentRef, packageNameID := some nid
            packageVersionID := none } := by
  simp only [generateHasSourceAtCreate] at h
  cases hr : resolveSourceID db.sources srcv <;> rw [hr] at h
  · simp at h
  · cases hn : resolvePkgNameID db.pkgNames pkgv <;> rw [hn] at h
    · simp at h
    · simp only [Except.ok.injEq] at h
      exact ⟨_, _, h.symm⟩

theorem generate_specificVersion_inv (db : DB) (pkgv : IDorPkgInput) (srcv : IDorSourceInput)
    (hs : HasSourceAtInputSpec) (f : HasSourceAtRow)
    (h : generateHasSourceAtCreate db (some pkgv) (some srcv) ⟨.specificVersion⟩ hs = .ok f) :
    ∃ sid vid,
      f = { id := 0, sourceID := sid, justification := hs.justification
            knownSince := hs.knownSince, collector := hs.collector, origin := hs.origin
            documentRef := hs.documentRef, packageNameID := none
            packageVersionID := some vid } := by
  simp only [generateHasSourceAtCreate] at h
  cases hr : resolveSourceID db.sources srcv <;> rw [hr] at h
  · simp at h
  · cases hv : resolvePkgVersionID db.pkgNames db.pkgVersions pkgv <;> rw [hv] at h
    · simp at h
    · simp only [Except.ok.injEq] at h
      exact ⟨_, _, h.symm⟩

/-- C2: a HasSourceAt create carries exactly one package foreign key, matching the match type; the partition predicate passed with the conflict columns admits exactly the rows of the chosen partition; consequently an all-versions record and a specific-version record with identical other fields are stored as two distinct rows. -/
theorem hasSourceAt_partition_distinct (db : DB) (pkg1 pkg2 : IDorPkgInput)
    (src : IDorSourceInput) (spec : HasSourceAtInputSpec) (f1 f2 : HasSourceAtRow)
    (h0 : db.hsats = [])
    (h1 : generateHasSourceAtCreate db (some pkg1) (some src) ⟨.allVersions⟩ spec = .ok f1)
    (h2 : generateHasSourceAtCreate db (some pkg2) (some src) ⟨.specificVersion⟩ spec = .ok f2) :
    (f1.packageNameID.isSome ∧ f1.packageVersionID = none
      ∧ hsatConflictWhere .allVersions f1 = true ∧ hsatConflictWhere .specificVersion f1 = false)
    ∧ (f2.packageVersionID.isSome ∧ f2.packageNameID = none
      ∧ hsatConflictWhere .specificVersion f2 = true ∧ hsatConflictWhere .allVersions f2 = false)
    ∧ ∃ db1 id1 db2 id2,
        upsertHasSourceAt db pkg1 ⟨.allVersions⟩ src spec = .ok (db1, id1)
        ∧ upsertHasSourceAt db1 pkg2 ⟨.specificVersion⟩ src spec = .ok (db2, id2)
        ∧ db2.hsats.length = 2 ∧ id1 ≠ id2 := by
  obtain ⟨sid1, nid1, hf1⟩ := generate_allVersions_inv db pkg1 src spec f1 h1
  obtain ⟨sid2, vid2, hf2⟩ := generate_specificVersion_inv db pkg2 src spec f2 h2
  subst hf1; subst hf2
  refine ⟨⟨rfl, rfl, rfl, rfl⟩, ⟨rfl, rfl, rfl, rfl⟩, ?_⟩
  have step1 : upsertHasSourceAt db pkg1 ⟨.allVersions⟩ src spec
      = .ok (hsatInsertIgnoreRet db .allVersions
          { id := 0, sourceID := sid1, justification := spec.justification
            knownSince := spec.knownSince, collector := spec.collector, origin := spec.origin
            documentRef := spec.documentRef, packageNameID := some nid1
            packageVersionID := none }) := by
    unfold upsertHasSourceAt
    rw [h1]
  set r1 : HasSourceAtRow :=
      { id := 0, sourceID := sid1, justification := spec.justification
        knownSince := spec.knownSince, collector := spec.collector, origin := spec.origin
        documentRef := spec.documentRef, packageNameID := some nid1
        packageVersionID := none } with hr1
  set r2 : HasSourceAtRow :=
      { id := 0, sourceID := sid2, justification := spec.justification
        knownSince := spec.knownSince, collector := spec.collector, origin := spec.origin
        documentRef := spec.documentRef, packageNameID := none
        packageVersionID := some vid2 } with hr2
  have hins1 : hsatInsertIgnoreRet db .allVersions r1
      = ({ db with hsats := db.hsats ++ [{ r1 with id := db.hsatNext }]
                   hsatNext := db.hsatNext + 1 }, db.hsatNext) := by
    unfold hsatInsertIgnoreRet
    rw [h0]
    simp [List.find?]
  set db1 : DB := { db with hsats := db.hsats ++ [{ r1 with id := db.hsatNext }]
                            hsatNext := db.hsatNext + 1 } with hdb1
  have hgen2 : generateHasSourceAtCreate db1 (some pkg2) (some src) ⟨.specificVersion⟩ spec
      = .ok r2 := by
    rw [generateHasSourceAtCreate_congr db db1 (some pkg2) (some src) ⟨.specificVersion⟩ spec
      rfl rfl rfl]
    exact h2
  have hnoconf : hsatConflicts .specificVersion r2 { r1 with id := db.hsatNext } = false := by
    simp [hsatConflicts, hsatConflictWhere, hr1, hr2]
  have hins2 : hsatInsertIgnoreRet db1 .specificVersion r2
      = ({ db1 with hsats := db1.hsats ++ [{ r2 with id := db1.hsatNext }]
                    hsatNext := db1.hsatNext + 1 }, db1.hsatNext) := by
    unfold hsatInsertIgnoreRet
    have : db1.hsats.find? (fun e => hsatConflicts .specificVersion r2 e) = none := by
      rw [hdb1]
      simp only [h0]
      simp [List.find?, hnoconf]
    rw [this]
  have step2 : upsertHasSourceAt db1 pkg2 ⟨.specificVersion⟩ src spec
      = .ok (hsatInsertIgnoreRet db1 .specificVersion r2) := by
    unfold upsertHasSourceAt
    rw [hgen2]
  refine ⟨db1, db.hsatNext,
    { db1 with hsats := db1.hsats ++ [{ r2 with id := db1.hsatNext }]
               hsatNext := db1.hsatNext + 1 },
    db1.hsatNext, ?_, ?_, ?_, ?_⟩
  · rw [step1, hins1]
  · rw [step2, hins2]
  · simp only [hdb1, h0]
    simp
  · simp only [hdb1]
    simp

/-- Witness for C2: the two match-type variants of one concrete record, ingested into a store holding the referenced package name, package version and source. -/
theorem hasSourceAt_partition_distinct_witness :
    ((⟨[], [], [], [], 0⟩ : DB).hsats = [])
    ∧ generateHasSourceAtCreate ⟨[], [], [], [], 0⟩
        (some ⟨some "package_names:n1", none, none⟩) (some ⟨some "source_names:s1", none⟩)
        ⟨.allVersions⟩ ⟨7, "j", "o", "c", "d"⟩
      = .ok { id := 0, sourceID := "s1", justification := "j", knownSince := 7
              collector := "c", origin := "o", documentRef := "d"
              packageNameID := some "n1", packageVersionID := none }
    ∧ generateHasSourceAtCreate ⟨[], [], [], [], 0⟩
        (some ⟨none, some "package_versions:v1", none⟩) (some ⟨some "source_names:s1", none⟩)
        ⟨.specificVersion⟩ ⟨7, "j", "o", "c", "d"⟩
      = .ok { id := 0, sourceID := "s1", justification := "j", knownSince := 7
              collector := "c", origin := "o", documentRef := "d"
              packageNameID := none, packageVersionID := some "v1" }
    ∧ (∃ db1 id1 db2 id2,
        upsertHasSourceAt ⟨[], [], [], [], 0⟩ ⟨some "package_names:n1", none, none⟩
            ⟨.allVersions⟩ ⟨some "source_names:s1", none⟩ ⟨7, "j", "o", "c", "d"⟩
          = .ok (db1, id1)
        ∧ upsertHasSourceAt db1 ⟨none, some "package_versions:v1", none⟩
            ⟨.specificVersion⟩ ⟨some "source_names:s1", none⟩ ⟨7, "j", "o", "c", "d"⟩
          = .ok (db2, id2)
        ∧ db2.hsats.length = 2 ∧ id1 ≠ id2) :=
  ⟨rfl, by rfl, by rfl,
    (hasSourceAt_partition_distinct ⟨[], [], [], [], 0⟩
      ⟨some "package_names:n1", none, none⟩ ⟨none, some "package_versions:v1", none⟩
      ⟨some "source_names:s1", none⟩ ⟨7, "j", "o", "c", "d"⟩
      { id := 0, sourceID := "s1", justification := "j", knownSince := 7
        collector := "c", origin := "o", documentRef := "d"
        packageNameID := some "n1", packageVersionID := none }
      { id := 0, sourceID := "s1", justification := "j", knownSince := 7
        collector := "c", origin := "o", documentRef := "d"
        packageNameID := none, packageVersionID := some "v1" }
      rfl (by rfl) (by rfl)).2.2⟩

/-- C3 (amended): a nil package wrapper or a nil source wrapper makes the call fail with an invalid-input error, and any generation failure aborts the upsert before anything is written; however a non-nil package wrapper carrying neither a resolved identifier nor an embedded package input fails with a nil-pointer dereference panic, not with an invalid-input error. -/
theorem hasSourceAt_invalid_input (db : DB) (pkgv : IDorPkgInput) (mt : MatchFlags)
    (srcv : IDorSourceInput) (hs : HasSourceAtInputSpec) :
    (generateHasSourceAtCreate db (some pkgv) none mt hs
        = .error (.invalidInput "source must be specified for hasSourceAt"))
    ∧ (∀ sid, resolveSourceID db.sources srcv = .ok sid →
        generateHasSourceAtCreate db none (some srcv) mt hs
          = .error (.invalidInput "package must be specified for hasSourceAt"))
    ∧ (∀ sid, resolveSourceID db.sources srcv = .ok sid →
        generateHasSourceAtCreate db (some ⟨none, none, none⟩) (some srcv) mt hs
          = .error .nilDeref)
    ∧ (∀ e, generateHasSourceAtCreate db (some pkgv) (some srcv) mt hs = .error e →
        upsertHasSourceAt db pkgv mt srcv hs = .error e) := by
  refine ⟨rfl, ?_, ?_, ?_⟩
  · intro sid h
    simp only [generateHasSourceAtCreate]
    rw [h]
  · intro sid h
    simp only [generateHasSourceAtCreate]
    rw [h]
    cases hmt : mt.pkg <;> simp [hmt, resolvePkgNameID, resolvePkgVersionID]
  · intro e he
    unfold upsertHasSourceAt
    rw [he]

/-- Witness for C3: nil wrappers yield invalid-input errors, the empty package wrapper yields the nil-dereference panic, and the failing upsert reports the failure without writing. -/
theorem hasSourceAt_invalid_input_witness :
    (generateHasSourceAtCreate ⟨[], [], [], [], 0⟩ (some ⟨none, none, none⟩) none
        ⟨.allVersions⟩ ⟨0, "", "", "", ""⟩
      = .error (.invalidInput "source must be specified for hasSourceAt"))
    ∧ (generateHasSourceAtCreate ⟨[], [], [], [], 0⟩ none
        (some ⟨some "source_names:s1", none⟩) ⟨.allVersions⟩ ⟨0, "", "", "", ""⟩
      = .error (.invalidInput "package must be specified for hasSourceAt"))
    ∧ (generateHasSourceAtCreate ⟨[], [], [], [], 0⟩ (some ⟨none, none, none⟩)
        (some ⟨some "source_names:s1", none⟩) ⟨.allVersions⟩ ⟨0, "", "", "", ""⟩
      = .error .nilDeref)
    ∧ upsertHasSourceAt ⟨[], [], [], [], 0⟩ ⟨none, none, none⟩ ⟨.allVersions⟩
        ⟨some "source_names:s1", none⟩ ⟨0, "", "", "", ""⟩ = .error .nilDeref :=
  ⟨(hasSourceAt_invalid_input ⟨[], [], [], [], 0⟩ ⟨none, none, none⟩ ⟨.allVersions⟩
      ⟨some "source_names:s1", none⟩ ⟨0, "", "", "", ""⟩).1,
   (hasSourceAt_invalid_input ⟨[], [], [], [], 0⟩ ⟨none, none, none⟩ ⟨.allVersions⟩
      ⟨some "source_names:s1", none⟩ ⟨0, "", "", "", ""⟩).2.1 "s1" rfl,
   (hasSourceAt_invalid_input ⟨[], [], [], [], 0⟩ ⟨none, none, none⟩ ⟨.allVersions⟩
      ⟨some "source_names:s1", none⟩ ⟨0, "", "", "", ""⟩).2.2.1 "s1" rfl,
   (hasSourceAt_invalid_input ⟨[], [], [], [], 0⟩ ⟨none, none, none⟩ ⟨.allVersions⟩
      ⟨some "source_names:s1", none⟩ ⟨0, "", "", "", ""⟩).2.2.2 .nilDeref
     ((hasSourceAt_invalid_input ⟨[], [], [], [], 0⟩ ⟨none, none, none⟩ ⟨.allVersions⟩
      ⟨some "source_names:s1", none⟩ ⟨0, "", "", "", ""⟩).2.2.1 "s1" rfl)⟩

/-- Counterexample to C3 as stated: for a package wrapper with neither a resolved identifier nor an embedded natural key (and a perfectly resolvable source), the call fails with a nil-pointer dereference panic, which is not an invalid-input error. -/
theorem hasSourceAt_missing_pkg_panic_cex :
    generateHasSourceAtCreate ⟨[], [], [], [], 0⟩ (some ⟨none, none, none⟩)
        (some ⟨some "source_names:s1", none⟩) ⟨.allVersions⟩ ⟨0, "", "", "", ""⟩
      = .error .nilDeref
    ∧ GoErr.nilDeref.isInvalidInput = false :=
  ⟨rfl, rfl⟩

/-- C4: evaluation of the bulk ingestion path on a one-record input whose package and source resolve successfully; the call succeeds but returns an empty identifier list instead of one identifier per input record, because the ids slice of upsertBulkHasSourceAts is never appended to. -/
theorem ingestHasSourceAts_returns_empty_ids :
    bulkResultIds (ingestHasSourceAts
        ⟨[⟨"sid1", "git", "ns", "n", "", ""⟩], [⟨"pn1", "golang", "gns", "p"⟩],
          [⟨"pv1", "pn1", "v1.0"⟩], [], 0⟩
        [some ⟨none, none, some ⟨"golang", "gns", "p", "v1.0"⟩⟩]
        ⟨.specificVersion⟩
        [some ⟨none, some ⟨"git", "ns", "n", none, none⟩⟩]
        [⟨5, "j", "or", "co", "d"⟩])
      = some []
    ∧ ([⟨5, "j", "or", "co", "d"⟩] : List HasSourceAtInputSpec).length = 1 :=
  ⟨rfl, rfl⟩

theorem upsertBulkHasSourceAtsGo_ids_empty (pkgs : List (Option IDorPkgInput))
    (mt : MatchFlags) (sources : List (Option IDorSourceInput))
    (bs : List (List HasSourceAtInputSpec)) :
    ∀ (db : DB) (index : Nat) (pr : DB × List String),
      upsertBulkHasSourceAtsGo db pkgs mt sources bs index = .ok pr → pr.2 = [] := by
  induction bs with
  | nil =>
    intro db index pr h
    simp only [upsertBulkHasSourceAtsGo, Except.ok.injEq] at h
    rw [← h]
  | cons b bs ih =>
    intro db index pr h
    simp only [upsertBulkHasSourceAtsGo] at h
    cases hbc : buildHsatCreates db pkgs sources mt b index <;> rw [hbc] at h
    · simp at h
    · exact ih _ _ pr h

/-- C4 (amended): the bulk ingestion path never reports per-record identifiers: whenever the call succeeds, the returned identifier list is empty — for upsertBulkHasSourceAts and for its IngestHasSourceAts wrapper alike — because the ids slice is allocated and returned but never appended to. -/
theorem bulkIngestion_returns_no_ids (db : DB) (pkgs : List (Option IDorPkgInput))
    (mt : MatchFlags) (sources : List (Option IDorSourceInput))
    (hsas : List HasSourceAtInputSpec) :
    (bulkResultIds (upsertBulkHasSourceAts db pkgs mt sources hsas) = some []
      ∨ bulkResultIds (upsertBulkHasSourceAts db pkgs mt sources hsas) = none)
    ∧ (bulkResultIds (ingestHasSourceAts db pkgs mt sources hsas) = some []
      ∨ bulkResultIds (ingestHasSourceAts db pkgs mt sources hsas) = none) := by
  cases h : upsertBulkHasSourceAts db pkgs mt sources hsas with
  | error e =>
    constructor
    · right; simp [bulkResultIds, h]
    · right; simp [ingestHasSourceAts, h, bulkResultIds]
  | ok pr =>
    have h' : upsertBulkHasSourceAtsGo db pkgs mt sources (chunk MaxBatchSize hsas) 0
        = .ok pr := h
    have hids : pr.2 = [] :=
      upsertBulkHasSourceAtsGo_ids_empty pkgs mt sources (chunk MaxBatchSize hsas) db 0 pr h'
    constructor
    · left; simp [bulkResultIds, h, hids]
    · left; simp [ingestHasSourceAts, h, bulkResultIds, toGlobalIDs, hids]

theorem buildHsatCreates_no_oob (db : DB) (pkgs : List (Option IDorPkgInput))
    (sources : List (Option IDorSourceInput)) (mt : MatchFlags)
    (b : List HasSourceAtInputSpec) :
    ∀ index, index + b.length ≤ pkgs.length → index + b.length ≤ sources.length →
      (buildHsatCreates db pkgs sources mt b index ≠ .error .indexOutOfRange)
      ∧ (∀ cs idx2, buildHsatCreates db pkgs sources mt b index = .ok (cs, idx2) →
          idx2 = index + b.length) := by
  induction b with
  | nil =>
    intro index h1 h2
    refine ⟨by simp [buildHsatCreates], ?_⟩
    intro cs idx2 h
    simp only [buildHsatCreates, Except.ok.injEq, Prod.mk.injEq] at h
    simp only [List.length_nil]
    omega
  | cons hsa rest ih =>
    intro index h1 h2
    simp only [List.length_cons] at h1 h2
    obtain ⟨p, hp⟩ : ∃ p, pkgs.get? index = some p := by
      cases hg : pkgs.get? index with
      | none => rw [List.get?_eq_none] at hg; omega
      | some p => exact ⟨p, rfl⟩
    obtain ⟨s, hsg⟩ : ∃ s, sources.get? index = some s := by
      cases hg : sources.get? index with
      | none => rw [List.get?_eq_none] at hg; omega
      | some s => exact ⟨s, rfl⟩
    have ihh := ih (index + 1) (by omega) (by omega)
    constructor
    · intro hcon
      simp only [buildHsatCreates, hp, hsg] at hcon
      cases hgen : generateHasSourceAtCreate db p s mt hsa with
      | error e =>
        rw [hgen] at hcon
        cases e <;> simp at hcon
      | ok c =>
        rw [hgen] at hcon
        cases hrec : buildHsatCreates db pkgs sources mt rest (index + 1) with
        | error e2 =>
          rw [hrec] at hcon
          simp only [Except.error.injEq] at hcon
          exact ihh.1 (by rw [hrec, hcon])
        | ok pr =>
          rw [hrec] at hcon
          simp at hcon
    · intro cs idx2 hok
      simp only [buildHsatCreates, hp, hsg] at hok
      cases hgen : generateHasSourceAtCreate db p s mt hsa with
      | error e =>
        rw [hgen] at hok
        cases e <;> simp at hok
      | ok c =>
        rw [hgen] at hok
        cases hrec : buildHsatCreates db pkgs sources mt rest (index + 1) with
        | error e2 => rw [hrec] at hok; simp at hok
        | ok pr =>
          rw [hrec] at hok
          simp only [Except.ok.injEq, Prod.mk.injEq] at hok
          have := ihh.2 pr.1 pr.2 (by rw [hrec])
          simp only [List.length_cons]
          omega

theorem bulkGo_no_oob (pkgs : List (Option IDorPkgInput))
    (sources : List (Option IDorSourceInput)) (mt : MatchFlags)
    (bs : List (List HasSourceAtInputSpec)) :
    ∀ (db : DB) (index : Nat),
      index + bs.flatten.length ≤ pkgs.length → index + bs.flatten.length ≤ sources.length →
      upsertBulkHasSourceAtsGo db pkgs mt sources bs index ≠ .error .indexOutOfRange := by
  induction bs with
  | nil =>
    intro db index _ _ hcon
    simp [upsertBulkHasSourceAtsGo] at hcon
  | cons b bs ih =>
    intro db index h1 h2 hcon
    simp only [List.flatten_cons, List.length_append] at h1 h2
    have hb := buildHsatCreates_no_oob db pkgs sources mt b index (by omega) (by omega)
    simp only [upsertBulkHasSourceAtsGo] at hcon
    cases hbc : buildHsatCreates db pkgs sources mt b index with
    | error e =>
      rw [hbc] at hcon
      simp only [Except.error.injEq] at hcon
      exact hb.1 (by rw [hbc, hcon])
    | ok pr =>
      rw [hbc] at hcon
      have hidx : pr.2 = index + b.length := hb.2 pr.1 pr.2 (by rw [hbc])
      exact ih _ pr.2 (by omega) (by omega) hcon

/-- C9: under the precondition that the pkgs and sources slices are each at least as long as the hasSourceAts slice, every running-index access of upsertBulkHasSourceAts is in bounds on every chunk, so the operation never fails with an index-out-of-range panic. -/
theorem upsertBulkHasSourceAts_no_oob (db : DB) (pkgs : List (Option IDorPkgInput))
    (mt : MatchFlags) (sources : List (Option IDorSourceInput))
    (hasSourceAts : List HasSourceAtInputSpec)
    (h1 : hasSourceAts.length ≤ pkgs.length) (h2 : hasSourceAts.length ≤ sources.length) :
    upsertBulkHasSourceAts db pkgs mt sources hasSourceAts ≠ .error .indexOutOfRange := by
  unfold upsertBulkHasSourceAts
  have hflat := chunk_flatten MaxBatchSize (by simp [MaxBatchSize]) hasSourceAts
  exact bulkGo_no_oob pkgs sources mt _ db 0 (by rw [hflat]; omega) (by rw [hflat]; omega)

/-- Witness for C9: a one-record bulk call with one package and one source never reports an index panic. -/
theorem upsertBulkHasSourceAts_no_oob_witness :
    (([⟨5, "j", "or", "co", "d"⟩] : List HasSourceAtInputSpec).length
        ≤ ([some ⟨none, none, some ⟨"golang", "gns", "p", "v1.0"⟩⟩]
            : List (Option IDorPkgInput)).length)
    ∧ (([⟨5, "j", "or", "co", "d"⟩] : List HasSourceAtInputSpec).length
        ≤ ([some ⟨none, some ⟨"git", "ns", "n", none, none⟩⟩]
            : List (Option IDorSourceInput)).length)
    ∧ upsertBulkHasSourceAts
        ⟨[⟨"sid1", "git", "ns", "n", "", ""⟩], [⟨"pn1", "golang", "gns", "p"⟩],
          [⟨"pv1", "pn1", "v1.0"⟩], [], 0⟩
        [some ⟨none, none, some ⟨"golang", "gns", "p", "v1.0"⟩⟩]
        ⟨.specificVersion⟩
        [some ⟨none, some ⟨"git", "ns", "n", none, none⟩⟩]
        [⟨5, "j", "or", "co", "d"⟩]
      ≠ .error .indexOutOfRange :=
  ⟨by decide, by decide,
    upsertBulkHasSourceAts_no_oob
      ⟨[⟨"sid1", "git", "ns", "n", "", ""⟩], [⟨"pn1", "golang", "gns", "p"⟩],
        [⟨"pv1", "pn1", "v1.0"⟩], [], 0⟩
      [some ⟨none, none, some ⟨"golang", "gns", "p", "v1.0"⟩⟩]
      ⟨.specificVersion⟩
      [some ⟨none, some ⟨"git", "ns", "n", none, none⟩⟩]
      [⟨5, "j", "or", "co", "d"⟩]
      (by decide) (by decide)⟩

/-- C5: evaluation of the compiled HasSourceAt filter.  The KnownSince field compiles to an equality (KnownSinceEQ): a stored record with knownSince 7 is rejected by a filter asking for knownSince 5 even though 5 is at most 7, contradicting the documented after-or-equal contract; an equal timestamp matches, and an unset KnownSince imposes no constraint. -/
theorem hasSourceAtQuery_knownSince_is_equality :
    hasSourceAtQueryMatches ⟨[], [], [], [], 0⟩ { knownSince := some 5 }
        ⟨0, "s", "j", 7, "c", "o", "d", none, none⟩ = false
    ∧ (5 : Nat) ≤ 7
    ∧ hasSourceAtQueryMatches ⟨[], [], [], [], 0⟩ { knownSince := some 5 }
        ⟨0, "s", "j", 5, "c", "o", "d", none, none⟩ = true
    ∧ hasSourceAtQueryMatches ⟨[], [], [], [], 0⟩ {}
        ⟨0, "s", "j", 7, "c", "o", "d", none, none⟩ = true :=
  ⟨rfl, by omega, rfl, rfl⟩

/-- C7: both list queries return exactly the capped count — the minimum of MaxPageSize and the number of matching rows — so a query matching more rows than the cap returns exactly MaxPageSize records and never an error. -/
theorem listQueries_page_capped (db : DB) (f1 : Option HasSourceAtSpec)
    (f2 : Option SourceSpec) :
    (entHasSourceAt db f1).length
      = min MaxPageSize (db.hsats.filter (hasSourceAtQueryMatches db (f1.getD {}))).length
    ∧ (entSources db f2).length
      = min MaxPageSize
          (db.sources.filter (fun r => sourceQueryMatches (f2.getD {}) r)).length
    ∧ (entHasSourceAt db f1).length ≤ MaxPageSize
    ∧ (entSources db f2).length ≤ MaxPageSize := by
  have e1 : (entHasSourceAt db f1).length
      = min MaxPageSize (db.hsats.filter (hasSourceAtQueryMatches db (f1.getD {}))).length := by
    simp [entHasSourceAt, List.length_take]
  have e2 : (entSources db f2).length
      = min MaxPageSize
          (db.sources.filter (fun r => sourceQueryMatches (f2.getD {}) r)).length := by
    simp [entSources, List.length_take]
  exact ⟨e1, e2, by rw [e1]; exact Nat.min_le_left _ _, by rw [e2]; exact Nat.min_le_left _ _⟩

/-- C6: the projection of a stored HasSourceAt record rebuilds the package subject as a hierarchy with a single namespace container and a single name container; a version-bound record exposes exactly that one version, and a name-bound (all-versions) record exposes an empty version list. -/
theorem toModelHasSourceAt_shape (hr : HasSourceAtRec)
    (h : hr.edgePackageVersion.isSome ∨ hr.edgeAllVersions.isSome) :
    ∃ m, toModelHasSourceAt hr = some m
      ∧ m.pkg.namespaces.length = 1
      ∧ ∀ ns ∈ m.pkg.namespaces,
          ns.names.length = 1
          ∧ ∀ nm ∈ ns.names,
              (∀ pv, hr.edgePackageVersion = some pv →
                nm.versions = [{ id := toGlobalID "package_versions" pv.1.id
                                 version := pv.1.version }])
              ∧ (hr.edgePackageVersion = none → nm.versions = []) := by
  cases hpv : hr.edgePackageVersion with
  | some pv =>
    simp only [toModelHasSourceAt, hpv]
    refine ⟨_, rfl, by simp [toModelPackage], ?_⟩
    intro ns hns
    simp only [toModelPackage, backReferencePackageVersion, List.mem_singleton] at hns
    subst hns
    refine ⟨rfl, ?_⟩
    intro nm hnm
    simp only [List.mem_singleton] at hnm
    subst hnm
    constructor
    · intro pv2 hpv2
      simp only [Option.some.injEq] at hpv2
      subst hpv2
      simp
    · intro hcon
      simp at hcon
  | none =>
    cases hav : hr.edgeAllVersions with
    | none =>
      rw [hpv, hav] at h
      simp at h
    | some n =>
      simp only [toModelHasSourceAt, hpv, hav]
      refine ⟨_, rfl, by simp [setVersionsEmpty, toModelPackage], ?_⟩
      intro ns hns
      simp only [setVersionsEmpty, toModelPackage, List.mem_singleton] at hns
      subst hns
      refine ⟨rfl, ?_⟩
      intro nm hnm
      simp only [List.mem_singleton] at hnm
      subst hnm
      constructor
      · intro pv2 hpv2
        simp at hpv2
      · intro _
        rfl

/-- Concrete eager-loaded records used as projection examples: one version-bound, one name-bound. -/
def exVersionBoundRec : HasSourceAtRec :=
  ⟨⟨1, "s1", "j", 5, "c", "o", "d", none, some "pv1"⟩, none,
    some (⟨"pv1", "pn1", "1.0"⟩, ⟨"pn1", "t", "nsp", "nm"⟩),
    some ⟨"s1", "git", "ns", "n", "", ""⟩⟩

/-- Witness for C6: the projection shape at a concrete version-bound record. -/
theorem toModelHasSourceAt_shape_witness :
    (exVersionBoundRec.edgePackageVersion.isSome ∨ exVersionBoundRec.edgeAllVersions.isSome)
    ∧ ∃ m, toModelHasSourceAt exVersionBoundRec = some m
      ∧ m.pkg.namespaces.length = 1
      ∧ ∀ ns ∈ m.pkg.namespaces,
          ns.names.length = 1
          ∧ ∀ nm ∈ ns.names,
              (∀ pv, exVersionBoundRec.edgePackageVersion = some pv →
                nm.versions = [{ id := toGlobalID "package_versions" pv.1.id
                                 version := pv.1.version }])
              ∧ (exVersionBoundRec.edgePackageVersion = none → nm.versions = []) :=
  ⟨Or.inl rfl, toModelHasSourceAt_shape exVersionBoundRec (Or.inl rfl)⟩

/-- C10: evaluation of srcNameNeighbors on a node carrying one CertifyBad and one CertifyGood certification.  With both certification edge kinds allowed, the CertifyGood eager-load replaces the CertifyBad one (the builder holds a single certification slot), so only the CertifyGood node is returned; with only CertifyBad allowed, the CertifyBad node is returned. -/
theorem srcNameNeighbors_cert_displacement :
    srcNameNeighbors ⟨[⟨"s1", "git", "ns", "n", "", ""⟩], [], [], [], 0⟩
        [⟨"cb", "s1", CertType.bad⟩, ⟨"cg", "s1", CertType.good⟩] "s1"
        ⟨false, false, true, true⟩
      = [NeighborNode.certifyGoodNode "cg"]
    ∧ NeighborNode.certifyBadNode "cb" ∉
        srcNameNeighbors ⟨[⟨"s1", "git", "ns", "n", "", ""⟩], [], [], [], 0⟩
          [⟨"cb", "s1", CertType.bad⟩, ⟨"cg", "s1", CertType.good⟩] "s1"
          ⟨false, false, true, true⟩
    ∧ srcNameNeighbors ⟨[⟨"s1", "git", "ns", "n", "", ""⟩], [], [], [], 0⟩
        [⟨"cb", "s1", CertType.bad⟩, ⟨"cg", "s1", CertType.good⟩] "s1"
        ⟨false, false, true, false⟩
      = [NeighborNode.certifyBadNode "cb"] :=
  ⟨rfl, by decide, rfl⟩

end Guac

